import Mathlib

/-!
Verification development for the Dogs-Life learn app core:
the CSV ingestion pipeline (`src/components/AdminDashboard.tsx`) and the
quiz session engine (`src/components/QuizGame.tsx`), embedded shallowly.

JavaScript string primitives (`trim`, `split`, `toLowerCase`, the two
`replace` calls) are modelled by structurally recursive functions over
`List Char` so that every definition evaluates by kernel reduction.
-/

namespace DogsLife

/-- Whitespace recognized by `String.prototype.trim` (restricted to the
ASCII whitespace characters; all inputs of interest are ASCII/Latin). -/
def isJsSpace (c : Char) : Bool :=
  decide (c = ' ' ∨ c = '\t' ∨ c = '\n' ∨ c = '\r' ∨ c = '\x0b' ∨ c = '\x0c')

/-- Drop leading and trailing whitespace from a character list. -/
def trimChars (cs : List Char) : List Char :=
  ((cs.dropWhile isJsSpace).reverse.dropWhile isJsSpace).reverse

/-- JS `s.trim()`. -/
def jsTrim (s : String) : String :=
  ⟨trimChars s.data⟩

/-- Worker for JS `s.split(sep)` with a single-character separator:
accumulates the current (reversed) field and emits a field at each
separator; the final field is emitted at the end of input. -/
def splitCharAux (sep : Char) : List Char → List Char → List String
  | [], buf => [⟨buf.reverse⟩]
  | c :: cs, buf =>
    if c = sep then ⟨buf.reverse⟩ :: splitCharAux sep cs []
    else splitCharAux sep cs (c :: buf)

/-- JS `s.split(sep)` for a single-character separator. -/
def jsSplitChar (sep : Char) (s : String) : List String :=
  splitCharAux sep s.data []

/-- JS `s.toLowerCase()` (ASCII letters). -/
def jsToLower (s : String) : String :=
  ⟨s.data.map Char.toLower⟩

/-- Question type enum from `types.ts` as used by both components. -/
inductive QuestionType where
  | single_choice
  | multiple_choice
deriving DecidableEq

/-- A persisted question (`Question` in `types.ts`): `id` assigned by storage. -/
structure Question where
  id : Nat
  question_text : String
  question_type : QuestionType
  all_answers : List String
  correct_answers : List String
  category : String
deriving DecidableEq

/-- A candidate question produced by the import pipeline (`Partial<Question>`
without `id`), as assembled in `handleFileUpload` (AdminDashboard.tsx:73-79). -/
structure QuestionCandidate where
  question_text : String
  question_type : QuestionType
  all_answers : List String
  correct_answers : List String
  category : String
deriving DecidableEq

/-- One tokenized CSV data row (`CsvRow` in `types.ts`), five raw string
fields in fixed order (AdminDashboard.tsx:134-139). -/
structure CsvRow where
  question : String
  question_type : String
  answers : String
  correct_answers : String
  category : String
deriving DecidableEq

/-- State of the character-level tokenizer loop of `parseCSV`
(AdminDashboard.tsx:114-128): fields emitted so far, current field buffer,
and the inside-quotes flag. -/
structure TokState where
  fields : List String
  buffer : String
  inQuote : Bool

/-- One step of the tokenizer loop body (AdminDashboard.tsx:118-128):
a quote toggles `inQuote` (and is not appended to the buffer), a comma
outside quotes closes the field, anything else is appended. -/
def tokenStep (st : TokState) (c : Char) : TokState :=
  if c = '"' then
    { st with inQuote := !st.inQuote }
  else if c = ',' ∧ st.inQuote = false then
    { fields := st.fields ++ [st.buffer], buffer := "", inQuote := st.inQuote }
  else
    { st with buffer := ⟨st.buffer.data ++ [c]⟩ }

/-- Tokenize one (already trimmed) physical line: run the loop over its
characters, then close the final field (AdminDashboard.tsx:118-129). -/
def tokenizeLine (line : String) : List String :=
  let st := line.data.foldl tokenStep ⟨[], "", false⟩
  st.fields ++ [st.buffer]

/-- Remove one leading double quote, half of `replace(/^"|"$/g, '')`
(AdminDashboard.tsx:131). -/
def stripLeadQuote : List Char → List Char
  | '"' :: rest => rest
  | cs => cs

/-- Remove one trailing double quote, the other half of
`replace(/^"|"$/g, '')` (AdminDashboard.tsx:131). -/
def stripTrailQuote (cs : List Char) : List Char :=
  if cs.getLast? = some '"' then cs.dropLast else cs

/-- JS `replace(/""/g, '"')` (AdminDashboard.tsx:131): left-to-right,
non-overlapping replacement of each doubled quote by a single quote. -/
def unescapeQuotes : List Char → List Char
  | '"' :: '"' :: cs => '"' :: unescapeQuotes cs
  | c :: cs => c :: unescapeQuotes cs
  | [] => []

/-- The per-field normalization `m.trim().replace(/^"|"$/g, '')
.replace(/""/g, '"').trim()` (AdminDashboard.tsx:131): trim, strip outer
quotes, unescape doubled quotes, trim again. -/
def normalizeField (s : String) : String :=
  ⟨trimChars (unescapeQuotes (stripTrailQuote (stripLeadQuote (trimChars s.data))))⟩

/-- Convert one raw physical line to a row (AdminDashboard.tsx:110-141):
trim it, skip it when blank, tokenize and normalize the fields, and keep
the first five fields when at least five are present; otherwise no row. -/
def lineToRow (rawLine : String) : Option CsvRow :=
  let currentLine := jsTrim rawLine
  if currentLine = "" then none
  else
    match (tokenizeLine currentLine).map normalizeField with
    | q :: t :: a :: c :: cat :: _ => some ⟨q, t, a, c, cat⟩
    | _ => none

/-- Parse a list of data lines into rows, keeping only lines that yield a
row (the loop body of `parseCSV`, AdminDashboard.tsx:110-142). -/
def parseLines (ls : List String) : List CsvRow :=
  ls.filterMap lineToRow

/-- `parseCSV` (AdminDashboard.tsx:106-144): split the text on newline,
drop the header line positionally, and parse the remaining lines. -/
def parseCSV (text : String) : List CsvRow :=
  parseLines ((jsSplitChar '\n' text).drop 1)

/-- The legacy category rename table `CATEGORY_MAP` (AdminDashboard.tsx:9-12). -/
def CATEGORY_MAP (c : String) : Option String :=
  if c = "Koalatest" then some "Hundeführerschein"
  else if c = "Hundetrainer Testfragen" then some "Trainerprüfung"
  else none

/-- `CATEGORY_MAP[category] || category` (AdminDashboard.tsx:71): unknown
categories pass through unchanged. -/
def mapCategory (c : String) : String :=
  (CATEGORY_MAP c).getD c

/-- The `question_type` normalization of `handleFileUpload`
(AdminDashboard.tsx:56-60): trim, then two sequential case-insensitive
rewrites of the literal strings with spaces to the underscore forms. -/
def normalizeType (raw : String) : String :=
  let t0 := jsTrim raw
  let t1 := if jsToLower t0 = "single choice" then "single_choice" else t0
  if jsToLower t1 = "multiple choice" then "multiple_choice" else t1

/-- `split(';').map(s => s.trim()).filter(Boolean)` applied to the answer
fields (AdminDashboard.tsx:76-77): split on semicolon, trim each token,
drop empty tokens. -/
def splitSemis (s : String) : List String :=
  ((jsSplitChar ';' s).map jsTrim).filter (fun t => t != "")

/-- The per-row body of `rows.map` in `handleFileUpload`
(AdminDashboard.tsx:55-79): normalize and validate the type (a failed
validation yields no candidate and is what the skip counter counts),
remap the category, split the answer fields, assemble the candidate. -/
def rowToCandidate (row : CsvRow) : Option QuestionCandidate :=
  let qType := normalizeType row.question_type
  if qType = "single_choice" ∨ qType = "multiple_choice" then
    some { question_text := row.question
         , question_type :=
             if qType = "single_choice" then QuestionType.single_choice
             else QuestionType.multiple_choice
         , all_answers := splitSemis row.answers
         , correct_answers := splitSemis row.correct_answers
         , category := mapCategory (jsTrim row.category) }
  else none

/-- The keep condition of the trailing `.filter` (AdminDashboard.tsx:80-82):
non-empty question text and at least one answer option. -/
def keepCandidate (q : QuestionCandidate) : Bool :=
  decide (q.question_text ≠ "" ∧ 0 < q.all_answers.length)

/-- Candidates accepted from a list of parsed rows: the row conversion
followed by the keep filter (AdminDashboard.tsx:55-82). -/
def acceptedRows (rows : List CsvRow) : List QuestionCandidate :=
  (rows.filterMap rowToCandidate).filter keepCandidate

/-- The value of `skippedCount` after the `rows.map` pass
(AdminDashboard.tsx:54-67): the number of parsed rows whose type failed
validation. -/
def skippedCount (rows : List CsvRow) : Nat :=
  rows.countP (fun r => (rowToCandidate r).isNone)

/-- Accepted candidates of a whole CSV text. -/
def acceptedOf (text : String) : List QuestionCandidate :=
  acceptedRows (parseCSV text)

/-- Skip counter of a whole CSV text. -/
def skippedOf (text : String) : Nat :=
  skippedCount (parseCSV text)

/-- The batch contract of `handleFileUpload` (AdminDashboard.tsx:84-91):
when no candidate survives, throw, with the message chosen by whether the
skip counter is positive; otherwise the batch and the skip count are
delivered (to `bulkInsertQuestions` and the summary message). -/
def ingest (text : String) : Except String (List QuestionCandidate × Nat) :=
  if (acceptedOf text).length = 0 then
    Except.error (if 0 < skippedOf text then
        "All rows were skipped due to errors."
      else
        "No valid questions found.")
  else
    Except.ok (acceptedOf text, skippedOf text)

/-! ## Quiz session engine (`src/components/QuizGame.tsx`)

The React component is embedded as a state machine. Component state
(QuizGame.tsx:12-15) becomes the fields of `QuizState`; the `onFinish`
collaborator calls are recorded in `emitted`; `timerActive` records
whether a `setInterval` countdown is currently installed (the effect at
QuizGame.tsx:25-41 installs one exactly when `timeLimit > 0`, and the
callback clears it when it fires). Events are the user-reachable handlers
together with their rendering guards: a button that is not rendered or is
`disabled` cannot deliver a click. -/

/-- The per-question selected options, `UserAnswers` in `types.ts`:
a JS object keyed by question id. Modelled as an association list where
the most recent binding wins; all reads go through `lookupD`. -/
def UserAnswers : Type := List (Nat × List String)

instance : DecidableEq UserAnswers := by
  unfold UserAnswers
  infer_instance

/-- `answers[questionId] || []` (QuizGame.tsx:58): the entry for a
question id, defaulting to the empty selection. -/
def lookupD (m : UserAnswers) (k : Nat) : List String :=
  match List.lookup k m with
  | some v => v
  | none => []

/-- The object update `{...prev, [questionId]: v}` (QuizGame.tsx:71-74):
the entry for `k` becomes `v`, every other entry is unchanged. -/
def setKey (m : UserAnswers) (k : Nat) (v : List String) : UserAnswers :=
  (k, v) :: m

/-- Component state of `QuizGame` (QuizGame.tsx:12-15) plus the record of
`onFinish` emissions and whether an interval timer is installed. -/
structure QuizState where
  currentIdx : Nat
  answers : UserAnswers
  showConfirmModal : Bool
  timeLeft : Nat
  timerActive : Bool
  emitted : List UserAnswers
deriving DecidableEq

/-- Initial state (QuizGame.tsx:12-15, 25-26): index 0, empty answer map,
modal closed, countdown seeded to the time limit, an interval installed
exactly when the limit is positive, nothing emitted. -/
def initState (timeLimit : Nat) : QuizState :=
  ⟨0, [], false, timeLimit, decide (0 < timeLimit), []⟩

/-- `InProgress`: modal closed and nothing emitted yet. -/
def InProgress (s : QuizState) : Prop :=
  s.showConfirmModal = false ∧ s.emitted = []

/-- `ConfirmingFinish`: the confirmation modal is open, nothing emitted yet. -/
def ConfirmingFinish (s : QuizState) : Prop :=
  s.showConfirmModal = true ∧ s.emitted = []

/-- `handleOptionToggle` (QuizGame.tsx:57-75): no-op when there is no
current question (the component renders no option buttons then,
QuizGame.tsx:88). For `single_choice` the selection becomes the singleton;
for `multiple_choice` membership of the option is toggled (remove all
occurrences if present, append if absent). Because the timer effect lists
`answers` in its dependency array (QuizGame.tsx:41), the answer update
clears and re-installs the interval, so afterwards one is installed
exactly when `timeLimit > 0`. -/
def handleOptionToggle (questions : List Question) (timeLimit : Nat)
    (option : String) (s : QuizState) : QuizState :=
  match questions.get? s.currentIdx with
  | none => s
  | some q =>
    let currentSelected := lookupD s.answers q.id
    let newSelected :=
      if q.question_type = QuestionType.single_choice then [option]
      else if currentSelected.contains option then
        currentSelected.filter (fun item => item != option)
      else
        currentSelected ++ [option]
    { s with answers := setKey s.answers q.id newSelected
           , timerActive := decide (0 < timeLimit) }

/-- `isAllAnswered` (QuizGame.tsx:78): every question has a non-empty
selection. -/
def isAllAnswered (questions : List Question) (s : QuizState) : Bool :=
  questions.all (fun q => (lookupD s.answers q.id).length > 0)

/-- `isLastQuestion` (QuizGame.tsx:50): the current index is the last one. -/
def isLastQuestion (questions : List Question) (s : QuizState) : Bool :=
  decide (s.currentIdx = questions.length - 1)

/-- The bare handler `handleFinishClick` (QuizGame.tsx:80-82): open the
confirmation modal. -/
def handleFinishClick (s : QuizState) : QuizState :=
  { s with showConfirmModal := true }

/-- The finish request as it is reachable from the UI: the Beenden button
is rendered only on the last question (QuizGame.tsx:173) and is `disabled`
unless `isAllAnswered` (QuizGame.tsx:176), so its click handler can run
only under both conditions; otherwise the state is unchanged. -/
def requestFinish (questions : List Question) (s : QuizState) : QuizState :=
  if isLastQuestion questions s ∧ isAllAnswered questions s then
    handleFinishClick s
  else s

/-- The Abbrechen button of the modal (QuizGame.tsx:204), reachable only
while the modal is shown (QuizGame.tsx:197): close the modal. -/
def cancelFinish (s : QuizState) : QuizState :=
  if s.showConfirmModal then { s with showConfirmModal := false } else s

/-- `confirmFinish` (QuizGame.tsx:84-86) via the Auswerten button,
reachable only while the modal is shown (QuizGame.tsx:197): call
`onFinish(answers)`. The handler changes no component state and in
particular does not close the modal or stop the timer. -/
def confirmFinish (s : QuizState) : QuizState :=
  if s.showConfirmModal then { s with emitted := s.emitted ++ [s.answers] } else s

/-- One interval tick (QuizGame.tsx:28-38), which occurs while an interval
is installed: when `timeLeft ≤ 1` the callback clears the interval, calls
`onFinish(answers)` and sets the countdown to 0; otherwise it decrements
the countdown. The callback does not consult `showConfirmModal`. -/
def tick (s : QuizState) : QuizState :=
  if s.timerActive then
    if s.timeLeft ≤ 1 then
      { s with timerActive := false, timeLeft := 0
             , emitted := s.emitted ++ [s.answers] }
    else
      { s with timeLeft := s.timeLeft - 1 }
  else s

/-! ## Helper lemmas -/

theorem lookupD_setKey_self (m : UserAnswers) (k : Nat) (v : List String) :
    lookupD (setKey m k v) k = v := by
  simp [lookupD, setKey, List.lookup]

theorem lookupD_setKey_ne (m : UserAnswers) (k k' : Nat) (v : List String)
    (h : k' ≠ k) : lookupD (setKey m k v) k' = lookupD m k' := by
  have hb : (k' == k) = false := beq_eq_false_iff_ne.mpr h
  simp [lookupD, setKey, List.lookup, hb]

theorem filter_bne_eq_self (l : List String) (o : String) (h : o ∉ l) :
    l.filter (fun x => x != o) = l := by
  induction l with
  | nil => rfl
  | cons x xs ih =>
    rw [List.mem_cons, not_or] at h
    have hx : (x != o) = true := by
      simp only [bne_iff_ne, ne_eq, decide_eq_true_eq]
      exact fun he => h.1 he.symm
    simp [List.filter_cons, hx, ih h.2]

/-! ## Claims about the quiz session engine -/

/-- Claim C2 (code bug, witnessed at a concrete run): the timer callback
(QuizGame.tsx:28-38) does not consult `showConfirmModal`, so in a
one-question session with a 2-second limit where the answer is selected
and the finish confirmation dialog is opened, the countdown still
decrements while the dialog is open, the expiry transition fires and
emits while the dialog is open, and a subsequent Auswerten click emits a
second time — contradicting the claim that the countdown is stopped in
`ConfirmingFinish`/`Finished` and that the finish emission cannot happen
twice. -/
theorem claim2_timer_runs_during_confirm :
    let qs : List Question :=
      [⟨1, "Q", QuestionType.multiple_choice, ["A", "B"], ["A"], "c"⟩]
    let s1 := handleOptionToggle qs 2 "A" (initState 2)
    let s2 := requestFinish qs s1
    let s3 := tick s2
    let s4 := tick s3
    let s5 := confirmFinish s4
    ConfirmingFinish s2 ∧
      s3.timeLeft = s2.timeLeft - 1 ∧ s3.showConfirmModal = true ∧
      s4.emitted = [[(1, ["A"])]] ∧ s4.showConfirmModal = true ∧
      s5.emitted = [[(1, ["A"])], [(1, ["A"])]] := by
  exact ⟨⟨rfl, rfl⟩, rfl, rfl, rfl, rfl, rfl⟩

/-- Claim C3: in an `InProgress` state in which the current index is not
the last index, or some question's answer set is empty, the finish
request is a no-op — the guard (the Beenden button is rendered only on
the last question and disabled unless all questions are answered,
QuizGame.tsx:173-176) keeps the session in `InProgress`. -/
theorem claim3_requestFinish_guard (questions : List Question) (s : QuizState)
    (hIP : InProgress s)
    (h : s.currentIdx ≠ questions.length - 1 ∨
      ∃ q ∈ questions, lookupD s.answers q.id = []) :
    requestFinish questions s = s ∧ InProgress (requestFinish questions s) := by
  have hguard : ¬(isLastQuestion questions s = true ∧
      isAllAnswered questions s = true) := by
    rintro ⟨hlast, hall⟩
    rcases h with h | ⟨q, hqmem, hempty⟩
    · exact h (by simpa [isLastQuestion] using hlast)
    · rw [isAllAnswered, List.all_eq_true] at hall
      have := hall q hqmem
      rw [hempty] at this
      simp at this
  have hres : requestFinish questions s = s := by
    rw [requestFinish, if_neg hguard]
  exact ⟨hres, by rw [hres]; exact hIP⟩

/-- Claim C3 witness: a two-question session at index 0 with nothing
answered stays `InProgress` under a finish request. -/
theorem claim3_witness :
    InProgress (initState 0) ∧
    ((initState 0).currentIdx ≠
      ([⟨1, "Q1", QuestionType.single_choice, ["A", "B"], ["A"], "c"⟩,
        ⟨2, "Q2", QuestionType.single_choice, ["A", "B"], ["B"], "c"⟩] :
          List Question).length - 1 ∨
      ∃ q ∈ ([⟨1, "Q1", QuestionType.single_choice, ["A", "B"], ["A"], "c"⟩,
        ⟨2, "Q2", QuestionType.single_choice, ["A", "B"], ["B"], "c"⟩] :
          List Question), lookupD (initState 0).answers q.id = []) ∧
    requestFinish
      [⟨1, "Q1", QuestionType.single_choice, ["A", "B"], ["A"], "c"⟩,
       ⟨2, "Q2", QuestionType.single_choice, ["A", "B"], ["B"], "c"⟩]
      (initState 0) = initState 0 :=
  ⟨⟨rfl, rfl⟩, Or.inl (by decide),
    (claim3_requestFinish_guard
      [⟨1, "Q1", QuestionType.single_choice, ["A", "B"], ["A"], "c"⟩,
       ⟨2, "Q2", QuestionType.single_choice, ["A", "B"], ["B"], "c"⟩]
      (initState 0) ⟨rfl, rfl⟩ (Or.inl (by decide))).1⟩

/-- Claim C4: a session whose countdown is installed (which the effect at
QuizGame.tsx:25-26 does exactly when the configured limit is positive)
and that is still `InProgress` (modal closed, nothing emitted) transitions
directly to `Finished` on the tick that reaches zero: it emits exactly the
answer map as it stands (unanswered questions simply have no entry, so an
empty selection is read for them), never opens the confirmation modal, and
stops the timer. No all-answered condition is required. -/
theorem claim4_timeout_autofinish (s : QuizState)
    (hrun : s.timerActive = true) (hconf : s.showConfirmModal = false)
    (hemit : s.emitted = []) (hzero : s.timeLeft ≤ 1) :
    (tick s).emitted = [s.answers] ∧ (tick s).showConfirmModal = false ∧
    (tick s).timerActive = false ∧ (tick s).answers = s.answers ∧
    (tick s).currentIdx = s.currentIdx := by
  have h1 : tick s = { s with timerActive := false, timeLeft := 0, emitted := s.emitted ++ [s.answers] } := by
    rw [tick, if_pos hrun, if_pos hzero]
  rw [h1, hemit]
  exact ⟨rfl, hconf, rfl, rfl, rfl⟩

/-- Claim C4 witness: with a 1-second limit and nothing answered, the
first tick finishes the session and emits the empty answer map. -/
theorem claim4_witness :
    (initState 1).timerActive = true ∧ (initState 1).showConfirmModal = false ∧
    (initState 1).emitted = [] ∧ (initState 1).timeLeft ≤ 1 ∧
    (tick (initState 1)).emitted = [(initState 1).answers] ∧
    (tick (initState 1)).showConfirmModal = false ∧
    (tick (initState 1)).timerActive = false :=
  ⟨rfl, rfl, rfl, by decide,
    (claim4_timeout_autofinish (initState 1) rfl rfl rfl (by decide)).1,
    (claim4_timeout_autofinish (initState 1) rfl rfl rfl (by decide)).2.1,
    (claim4_timeout_autofinish (initState 1) rfl rfl rfl (by decide)).2.2.1⟩

/-- One option toggle on a `multiple_choice` current question in closed
form: the current question's entry becomes the filtered or extended
selection, everything else of the state update is as written at
QuizGame.tsx:63-74. -/
theorem toggle_multi_eq (questions : List Question) (timeLimit : Nat)
    (option : String) (s : QuizState) (q : Question)
    (hq : questions.get? s.currentIdx = some q)
    (ht : q.question_type = QuestionType.multiple_choice) :
    handleOptionToggle questions timeLimit option s =
      { s with
          answers := setKey s.answers q.id
            (if (lookupD s.answers q.id).contains option then
              (lookupD s.answers q.id).filter (fun item => item != option)
            else lookupD s.answers q.id ++ [option])
        , timerActive := decide (0 < timeLimit) } := by
  have hns : ¬ q.question_type = QuestionType.single_choice := by
    intro hc
    rw [ht] at hc
    exact QuestionType.noConfusion hc
  simp only [handleOptionToggle, hq]
  rw [if_neg hns]

/-- Claim C9: in an `InProgress` session whose current question has type
`multiple_choice`, toggling the same option twice returns that question's
answer set to its previous value up to membership, and exactly to `[]`
when it was empty (the toggle is an involution on membership). -/
theorem claim9_toggle_involution (questions : List Question) (timeLimit : Nat)
    (option : String) (s : QuizState) (q : Question)
    (hq : questions.get? s.currentIdx = some q)
    (ht : q.question_type = QuestionType.multiple_choice)
    (hIP : InProgress s) :
    (∀ x, x ∈ lookupD (handleOptionToggle questions timeLimit option
        (handleOptionToggle questions timeLimit option s)).answers q.id ↔
      x ∈ lookupD s.answers q.id) ∧
    (lookupD s.answers q.id = [] →
      lookupD (handleOptionToggle questions timeLimit option
        (handleOptionToggle questions timeLimit option s)).answers q.id = []) := by
  have h1 := toggle_multi_eq questions timeLimit option s q hq ht
  have hidx : (handleOptionToggle questions timeLimit option s).currentIdx =
      s.currentIdx := by
    rw [h1]
  have hq1 : questions.get? (handleOptionToggle questions timeLimit option
      s).currentIdx = some q := by
    rw [hidx]; exact hq
  have h2 := toggle_multi_eq questions timeLimit option
    (handleOptionToggle questions timeLimit option s) q hq1 ht
  have hl1 : lookupD (handleOptionToggle questions timeLimit option s).answers q.id =
      (if (lookupD s.answers q.id).contains option then
        (lookupD s.answers q.id).filter (fun item => item != option)
      else lookupD s.answers q.id ++ [option]) := by
    rw [h1]
    exact lookupD_setKey_self _ _ _
  have hl2 : lookupD (handleOptionToggle questions timeLimit option
      (handleOptionToggle questions timeLimit option s)).answers q.id =
      (if (lookupD (handleOptionToggle questions timeLimit option
          s).answers q.id).contains option then
        (lookupD (handleOptionToggle questions timeLimit option
          s).answers q.id).filter (fun item => item != option)
      else lookupD (handleOptionToggle questions timeLimit option
          s).answers q.id ++ [option]) := by
    rw [h2]
    exact lookupD_setKey_self _ _ _
  by_cases hmem : option ∈ lookupD s.answers q.id
  · -- present: first toggle removes every occurrence, second appends it
    have hc1 : (lookupD s.answers q.id).contains option = true :=
      List.elem_eq_true_of_mem hmem
    rw [if_pos hc1] at hl1
    have hno : option ∉ (lookupD s.answers q.id).filter
        (fun item => item != option) := by
      intro hin
      rw [List.mem_filter] at hin
      simpa using hin.2
    have hc2 : ((lookupD s.answers q.id).filter
        (fun item => item != option)).contains option = false := by
      cases hcc : ((lookupD s.answers q.id).filter
          (fun item => item != option)).contains option
      · rfl
      · exact absurd (List.mem_of_elem_eq_true hcc) hno
    rw [hl1, if_neg (by rw [hc2]; exact Bool.false_ne_true)] at hl2
    constructor
    · intro x
      rw [hl2, List.mem_append, List.mem_filter, List.mem_singleton]
      constructor
      · rintro (⟨hx, _⟩ | hx)
        · exact hx
        · rw [hx]; exact hmem
      · intro hx
        by_cases hxo : x = option
        · exact Or.inr hxo
        · refine Or.inl ⟨hx, ?_⟩
          simpa using hxo
    · intro hempty
      rw [hempty] at hmem
      exact absurd hmem (List.not_mem_nil option)
  · -- absent: first toggle appends it, second removes it again
    have hc1 : (lookupD s.answers q.id).contains option = false := by
      cases hcc : (lookupD s.answers q.id).contains option
      · rfl
      · exact absurd (List.mem_of_elem_eq_true hcc) hmem
    rw [if_neg (by rw [hc1]; exact Bool.false_ne_true)] at hl1
    have hc2 : ((lookupD s.answers q.id) ++ [option]).contains option = true := by
      apply List.elem_eq_true_of_mem
      rw [List.mem_append, List.mem_singleton]
      exact Or.inr rfl
    rw [hl1, if_pos hc2, List.filter_append,
      filter_bne_eq_self _ _ hmem] at hl2
    have hl2' : lookupD (handleOptionToggle questions timeLimit option
        (handleOptionToggle questions timeLimit option s)).answers q.id =
        lookupD s.answers q.id := by
      rw [hl2]
      simp
    exact ⟨fun x => by rw [hl2'], fun hempty => by rw [hl2', hempty]⟩

/-- Claim C9 witness: one multiple-choice question, empty initial
selection, toggling option A twice yields the empty selection again. -/
theorem claim9_witness :
    ([⟨1, "Q", QuestionType.multiple_choice, ["A", "B"], ["A"], "c"⟩] :
        List Question).get? (initState 0).currentIdx =
      some ⟨1, "Q", QuestionType.multiple_choice, ["A", "B"], ["A"], "c"⟩ ∧
    InProgress (initState 0) ∧
    lookupD (initState 0).answers 1 = [] ∧
    lookupD (handleOptionToggle
      [⟨1, "Q", QuestionType.multiple_choice, ["A", "B"], ["A"], "c"⟩] 0 "A"
      (handleOptionToggle
        [⟨1, "Q", QuestionType.multiple_choice, ["A", "B"], ["A"], "c"⟩] 0 "A"
        (initState 0))).answers 1 = [] :=
  ⟨rfl, ⟨rfl, rfl⟩, rfl,
    (claim9_toggle_involution
      [⟨1, "Q", QuestionType.multiple_choice, ["A", "B"], ["A"], "c"⟩] 0 "A"
      (initState 0) ⟨1, "Q", QuestionType.multiple_choice, ["A", "B"], ["A"], "c"⟩
      rfl rfl ⟨rfl, rfl⟩).2 rfl⟩

/-- Claim C10: in an `InProgress` session, an option toggle changes at
most the answer-map entry keyed by the current question's id: entries at
every other key read the same, and the current index, the modal flag, the
emission record and the countdown are unchanged (the question list is a
parameter the transition cannot touch). -/
theorem claim10_toggle_frame (questions : List Question) (timeLimit : Nat)
    (option : String) (s : QuizState) (hIP : InProgress s) :
    (handleOptionToggle questions timeLimit option s).currentIdx = s.currentIdx ∧
    (handleOptionToggle questions timeLimit option s).showConfirmModal =
      s.showConfirmModal ∧
    (handleOptionToggle questions timeLimit option s).emitted = s.emitted ∧
    (handleOptionToggle questions timeLimit option s).timeLeft = s.timeLeft ∧
    (∀ k, (∀ q, questions.get? s.currentIdx = some q → k ≠ q.id) →
      lookupD (handleOptionToggle questions timeLimit option s).answers k =
        lookupD s.answers k) := by
  cases hq : questions.get? s.currentIdx with
  | none =>
    have h : handleOptionToggle questions timeLimit option s = s := by
      simp only [handleOptionToggle, hq]
    rw [h]
    exact ⟨rfl, rfl, rfl, rfl, fun k _ => rfl⟩
  | some q =>
    refine ⟨?_, ?_, ?_, ?_, ?_⟩
    · simp only [handleOptionToggle, hq]
    · simp only [handleOptionToggle, hq]
    · simp only [handleOptionToggle, hq]
    · simp only [handleOptionToggle, hq]
    · intro k hk
      have hne : k ≠ q.id := hk q rfl
      simp only [handleOptionToggle, hq]
      exact lookupD_setKey_ne _ _ _ _ hne

/-- Claim C10 witness: toggling option A on the first of two questions
leaves the second question's entry, the index, the flags and the countdown
unchanged. -/
theorem claim10_witness :
    InProgress (initState 7) ∧
    (handleOptionToggle
      [⟨1, "Q1", QuestionType.single_choice, ["A", "B"], ["A"], "c"⟩,
       ⟨2, "Q2", QuestionType.single_choice, ["A", "B"], ["B"], "c"⟩] 7 "A"
      (initState 7)).currentIdx = (initState 7).currentIdx ∧
    lookupD (handleOptionToggle
      [⟨1, "Q1", QuestionType.single_choice, ["A", "B"], ["A"], "c"⟩,
       ⟨2, "Q2", QuestionType.single_choice, ["A", "B"], ["B"], "c"⟩] 7 "A"
      (initState 7)).answers 2 = lookupD (initState 7).answers 2 :=
  ⟨⟨rfl, rfl⟩,
    (claim10_toggle_frame
      [⟨1, "Q1", QuestionType.single_choice, ["A", "B"], ["A"], "c"⟩,
       ⟨2, "Q2", QuestionType.single_choice, ["A", "B"], ["B"], "c"⟩] 7 "A"
      (initState 7) ⟨rfl, rfl⟩).1,
    (claim10_toggle_frame
      [⟨1, "Q1", QuestionType.single_choice, ["A", "B"], ["A"], "c"⟩,
       ⟨2, "Q2", QuestionType.single_choice, ["A", "B"], ["B"], "c"⟩] 7 "A"
      (initState 7) ⟨rfl, rfl⟩).2.2.2.2 2 (by decide)⟩

/-! ## Claims about the CSV ingestion pipeline -/

/-- Claim C1 counterexample: the pipeline performs no membership check on
`correct_answers` (AdminDashboard.tsx:77), so the input row
`Q,single choice,A;B,X;Y,cat` is accepted with `correct_answers`
`["X","Y"]`, which is not a subset of `all_answers` `["A","B"]` and has
two elements for a `single_choice` question. -/
theorem claim1_counterexample :
    ¬ (∀ q ∈ acceptedOf "h\nQ,single choice,A;B,X;Y,cat",
      (∀ a ∈ q.correct_answers, a ∈ q.all_answers) ∧
      (q.question_type = QuestionType.single_choice →
        q.correct_answers.length ≤ 1)) := by
  decide

/-- Claim C1 (amended): when every parsed data row lists correct-answer
tokens that all occur among its answer tokens and, for single-choice
rows, lists at most one, then every accepted candidate satisfies
`correct_answers ⊆ all_answers` and the single-choice cardinality bound —
the fields are copied verbatim from the row (AdminDashboard.tsx:76-77),
and the pipeline itself enforces neither constraint. -/
theorem claim1_invariant_conditional (text : String)
    (hsub : ∀ row ∈ parseCSV text, ∀ a ∈ splitSemis row.correct_answers,
      a ∈ splitSemis row.answers)
    (hcard : ∀ row ∈ parseCSV text,
      normalizeType row.question_type = "single_choice" →
      (splitSemis row.correct_answers).length ≤ 1) :
    ∀ q ∈ acceptedOf text,
      (∀ a ∈ q.correct_answers, a ∈ q.all_answers) ∧
      (q.question_type = QuestionType.single_choice →
        q.correct_answers.length ≤ 1) := by
  intro q hq
  rw [acceptedOf, acceptedRows, List.mem_filter, List.mem_filterMap] at hq
  obtain ⟨⟨row, hrow, hconv⟩, _⟩ := hq
  simp only [rowToCandidate] at hconv
  by_cases htyp : normalizeType row.question_type = "single_choice" ∨
      normalizeType row.question_type = "multiple_choice"
  · rw [if_pos htyp, Option.some.injEq] at hconv
    subst hconv
    constructor
    · intro a ha
      exact hsub row hrow a ha
    · intro hsc
      by_cases hone : normalizeType row.question_type = "single_choice"
      · exact hcard row hrow hone
      · have hsc' : (if normalizeType row.question_type = "single_choice"
            then QuestionType.single_choice
            else QuestionType.multiple_choice) = QuestionType.single_choice := hsc
        rw [if_neg hone] at hsc'
        exact QuestionType.noConfusion hsc'
  · rw [if_neg htyp] at hconv
    exact Option.noConfusion hconv

/-- Claim C1 witness: on an input whose single row does satisfy both row
conditions, every accepted candidate satisfies the invariant. -/
theorem claim1_witness :
    (∀ row ∈ parseCSV "h\nQ,single choice,A;B,A,cat",
      ∀ a ∈ splitSemis row.correct_answers, a ∈ splitSemis row.answers) ∧
    (∀ row ∈ parseCSV "h\nQ,single choice,A;B,A,cat",
      normalizeType row.question_type = "single_choice" →
      (splitSemis row.correct_answers).length ≤ 1) ∧
    (∀ q ∈ acceptedOf "h\nQ,single choice,A;B,A,cat",
      (∀ a ∈ q.correct_answers, a ∈ q.all_answers) ∧
      (q.question_type = QuestionType.single_choice →
        q.correct_answers.length ≤ 1)) :=
  ⟨by decide, by decide,
    claim1_invariant_conditional "h\nQ,single choice,A;B,A,cat"
      (by decide) (by decide)⟩

/-- Claim C5 (code bug, evaluated at the failing input): the tokenizer
consumes every quote character as an `inQuote` toggle and never appends it
to the field buffer (AdminDashboard.tsx:120-121), so a field whose raw
text contains the doubled quote `""` produces a field value with no quote
at all — the later unescape pass `replace(/""/g, '"')` never sees a
doubled quote. The first field of the data line
`say ""hi"" ok,single choice,A;B,A,cat` becomes `say hi ok`, not the
claimed `say "hi" ok`. -/
theorem claim5_doubled_quote_vanishes :
    parseCSV "h\nsay \"\"hi\"\" ok,single choice,A;B,A,cat" =
      [⟨"say hi ok", "single choice", "A;B", "A", "cat"⟩] ∧
    ¬ '"' ∈ "say hi ok".data := by
  exact ⟨by decide, by decide⟩

/-- Claim C6 counterexample: the keep condition only demands at least one
answer option (AdminDashboard.tsx:81), so the row `Q,single choice,A,A,cat`
is accepted with a one-element `all_answers`, below the data model's
claimed lower bound of 2. -/
theorem claim6_counterexample :
    ¬ (∀ q ∈ acceptedOf "h\nQ,single choice,A,A,cat",
      2 ≤ q.all_answers.length) := by
  decide

/-- Claim C6 (amended): every accepted candidate has at least one answer
option — exactly the bound the keep condition checks; a length of 2 is
not guaranteed. -/
theorem claim6_min_one_answer (text : String) (q : QuestionCandidate)
    (hq : q ∈ acceptedOf text) : 1 ≤ q.all_answers.length := by
  rw [acceptedOf, acceptedRows, List.mem_filter] at hq
  have hk := hq.2
  rw [keepCandidate, decide_eq_true_eq] at hk
  exact hk.2

/-- Claim C6 witness: the accepted candidate of the counterexample input
has exactly one answer option, which meets the amended bound. -/
theorem claim6_witness :
    (⟨"Q", QuestionType.single_choice, ["A"], ["A"], "cat"⟩ :
      QuestionCandidate) ∈ acceptedOf "h\nQ,single choice,A,A,cat" ∧
    1 ≤ (⟨"Q", QuestionType.single_choice, ["A"], ["A"], "cat"⟩ :
      QuestionCandidate).all_answers.length :=
  ⟨by decide,
    claim6_min_one_answer "h\nQ,single choice,A,A,cat"
      ⟨"Q", QuestionType.single_choice, ["A"], ["A"], "cat"⟩ (by decide)⟩

/-- Claim C7: the ingest operation fails exactly when the accepted set is
empty after processing; the error message distinguishes the case with a
positive skip counter ("All rows were skipped due to errors.") from the
case without usable rows ("No valid questions found."); in every other
case the batch and skip count are returned, so row-level problems never
surface as errors. -/
theorem claim7_empty_batch_iff (text : String) :
    ((∃ m, ingest text = Except.error m) ↔ acceptedOf text = []) ∧
    (acceptedOf text = [] → ingest text = Except.error
      (if 0 < skippedOf text then "All rows were skipped due to errors."
        else "No valid questions found.")) ∧
    (acceptedOf text ≠ [] →
      ingest text = Except.ok (acceptedOf text, skippedOf text)) := by
  by_cases h : (acceptedOf text).length = 0
  · have he : acceptedOf text = [] := List.length_eq_zero.mp h
    have hing : ingest text = Except.error
        (if 0 < skippedOf text then "All rows were skipped due to errors."
          else "No valid questions found.") := by
      rw [ingest, if_pos h]
    exact ⟨⟨fun _ => he, fun _ => ⟨_, hing⟩⟩, fun _ => hing,
      fun hne => absurd he hne⟩
  · have hne : acceptedOf text ≠ [] := by
      intro he
      rw [he] at h
      exact h rfl
    have hing : ingest text = Except.ok (acceptedOf text, skippedOf text) := by
      rw [ingest, if_neg h]
    refine ⟨⟨?_, fun he => absurd he hne⟩, fun he => absurd he hne,
      fun _ => hing⟩
    rintro ⟨m, hm⟩
    rw [hing] at hm
    exact Except.noConfusion hm

/-- Claim C7 witness: a header plus one `essay`-typed row yields an empty
batch with one skipped row and the skipped-rows message. -/
theorem claim7_witness :
    ingest "h\nQ,essay,A;B,A,cat" = Except.error
      (if 0 < skippedOf "h\nQ,essay,A;B,A,cat" then
        "All rows were skipped due to errors."
      else "No valid questions found.") ∧
    skippedOf "h\nQ,essay,A;B,A,cat" = 1 ∧
    acceptedOf "h\nQ,essay,A;B,A,cat" = [] :=
  ⟨(claim7_empty_batch_iff "h\nQ,essay,A;B,A,cat").2.1 (by decide),
    by decide, by decide⟩

/-- A line whose (trimmed) tokenization has fewer than five fields
produces no row: either it is blank after trimming, or the five-field
pattern match fails (AdminDashboard.tsx:111-141). -/
theorem lineToRow_eq_none_of_short (l : String)
    (h : (tokenizeLine (jsTrim l)).length < 5) : lineToRow l = none := by
  simp only [lineToRow]
  by_cases hb : jsTrim l = ""
  · rw [if_pos hb]
  · rw [if_neg hb]
    have hlen : ((tokenizeLine (jsTrim l)).map normalizeField).length < 5 := by
      rw [List.length_map]
      exact h
    generalize hml : (tokenizeLine (jsTrim l)).map normalizeField = vals at hlen ⊢
    rcases vals with _ | ⟨a, _ | ⟨b, _ | ⟨c, _ | ⟨d, _ | ⟨e, rest⟩⟩⟩⟩⟩
    · rfl
    · rfl
    · rfl
    · rfl
    · rfl
    · exfalso
      simp only [List.length_cons] at hlen
      omega

/-- Claim C8: a data line that tokenizes to fewer than five fields is
silently dropped: inserting it anywhere among the data lines changes
neither the parsed rows nor the skip counter computed from them. -/
theorem claim8_short_line_dropped (a b : List String) (l : String)
    (h : (tokenizeLine (jsTrim l)).length < 5) :
    parseLines (a ++ l :: b) = parseLines (a ++ b) ∧
    skippedCount (parseLines (a ++ l :: b)) =
      skippedCount (parseLines (a ++ b)) := by
  have hnone := lineToRow_eq_none_of_short l h
  have heq : parseLines (a ++ l :: b) = parseLines (a ++ b) := by
    simp [parseLines, List.filterMap_append, hnone]
  exact ⟨heq, by rw [heq]⟩

/-- Claim C8 witness: a three-field line inserted before a valid data line
leaves the parsed rows unchanged. -/
theorem claim8_witness :
    (tokenizeLine (jsTrim "only,three,fields")).length < 5 ∧
    parseLines ([] ++ "only,three,fields" :: ["Q,single choice,A;B,A,cat"]) =
      parseLines ([] ++ ["Q,single choice,A;B,A,cat"]) :=
  ⟨by decide,
    (claim8_short_line_dropped [] ["Q,single choice,A;B,A,cat"]
      "only,three,fields" (by decide)).1⟩

end DogsLife
